import Mathlib

/-!
Shallow embedding of the agent-based housing-market model
(`real_estate_toolkit.agent_based_model`: `houses.py`, `house_market.py`,
`consumers.py`, `simulation.py`).

Modelling conventions:
* Python `float` values are modelled as exact rationals (`ℚ`).
* In-place mutation of an object is modelled by returning the updated record.
* `raise ValueError` is modelled with `Except String`.
* Python's `round(x, 2)` (round-half-to-even on the scaled value) is modelled
  by `round2` below.
* Python object identity for houses is modelled through the `id` field, the
  same key the source's `_house_index` dictionary uses.
-/

deriving instance DecidableEq for Except

inductive QualityScore where
  | EXCELLENT
  | GOOD
  | AVERAGE
  | FAIR
  | POOR
deriving DecidableEq, Repr

inductive Segment where
  | FANCY
  | OPTIMIZER
  | AVERAGE
deriving DecidableEq, Repr

/-- Floor of a rational, kept kernel-computable. -/
def ratFloor (x : ℚ) : ℤ := Int.fdiv x.num x.den

/-- Round-half-to-even of a rational to an integer, as Python's `round`. -/
def roundHalfEven (x : ℚ) : ℤ :=
  if x - (ratFloor x : ℚ) < 1/2 then ratFloor x
  else if x - (ratFloor x : ℚ) > 1/2 then ratFloor x + 1
  else if ratFloor x % 2 = 0 then ratFloor x else ratFloor x + 1

/-- Python's `round(x, 2)`: round to 2 decimal places. -/
def round2 (x : ℚ) : ℚ := (roundHalfEven (x * 100) : ℚ) / 100

/-- `House` dataclass from `houses.py`. -/
structure House where
  id : ℕ
  price : ℚ
  area : ℚ
  bedrooms : ℤ
  year_built : ℤ
  quality_score : Option QualityScore
  available : Bool
deriving DecidableEq, Repr

/-- `House.calculate_price_per_square_foot` from `houses.py`. -/
def House.calculate_price_per_square_foot (h : House) : Except String ℚ :=
  if h.area ≤ 0 then .error "Area must be greater than 0"
  else .ok (round2 (h.price / h.area))

/-- `House.is_new_construction` from `houses.py` (default `current_year=2024`
passed explicitly). -/
def House.is_new_construction (h : House) (current_year : ℤ) : Except String Bool :=
  if h.year_built > current_year then .error "Year built cannot be in the future"
  else if h.year_built < 1800 then .error "Year built cannot be before 1800"
  else .ok (decide (current_year - h.year_built < 5))

/-- The composite `total_score` computed inside `House.get_quality_score`. -/
def House.quality_total_score (h : House) : ℚ :=
  let age_score : ℚ := 1 - ((2024 : ℚ) - (h.year_built : ℚ)) / ((2024 : ℚ) - 1800)
  let size_per_bedroom : ℚ := h.area / ((max 1 h.bedrooms : ℤ) : ℚ)
  let size_score : ℚ := min 1 (size_per_bedroom / (200 * 2))
  let base_size_score : ℚ := min 1 (h.area / (2000 * 2))
  age_score * 0.3 + size_score * 0.4 + base_size_score * 0.3

/-- The threshold mapping at the end of `House.get_quality_score`. -/
def scoreToQuality (t : ℚ) : QualityScore :=
  if t ≥ 0.8 then .EXCELLENT
  else if t ≥ 0.6 then .GOOD
  else if t ≥ 0.4 then .AVERAGE
  else if t ≥ 0.2 then .FAIR
  else .POOR

/-- `House.get_quality_score` from `houses.py` (mutation modelled by
returning the updated house). -/
def House.get_quality_score (h : House) : House :=
  match h.quality_score with
  | some _ => h
  | none => { h with quality_score := some (scoreToQuality h.quality_total_score) }

/-- `House.sell_house` from `houses.py`. -/
def House.sell_house (h : House) : House := { h with available := false }

/-- `HousingMarket` from `house_market.py` (the `_house_index` dictionary is
derived data and not modelled separately). -/
structure HousingMarket where
  houses : List House
deriving DecidableEq, Repr

/-- `statistics.mean` over the prices of a list of houses, with the
empty-list `ValueError` raised by `calculate_average_price`. -/
def meanPrice (l : List House) : Except String ℚ :=
  if l.isEmpty then .error "No available houses found"
  else .ok ((l.map House.price).sum / (l.length : ℚ))

/-- `HousingMarket.calculate_average_price` from `house_market.py`. -/
def HousingMarket.calculate_average_price (m : HousingMarket) (bedrooms : Option ℤ) :
    Except String ℚ :=
  match bedrooms with
  | some b =>
    if b < 0 then .error "Number of bedrooms cannot be negative"
    else meanPrice (m.houses.filter (fun h => h.available && h.bedrooms == b))
  | none => meanPrice (m.houses.filter (fun h => h.available))

/-- The segment-specific filter applied to one house inside
`HousingMarket.get_houses_that_meet_requirements`.  For `FANCY` the
`is_new_construction` `ValueError` propagates (the source has no
`try` there); `OPTIMIZER` and `AVERAGE` catch their computation errors
(`except` → the house is skipped). -/
def checkSegment (m : HousingMarket) (segment : Segment) (h : House) : Except String Bool :=
  match segment with
  | .FANCY =>
    match h.is_new_construction 2024 with
    | .error e => .error e
    | .ok newc => .ok (newc && h.quality_score == some QualityScore.EXCELLENT)
  | .OPTIMIZER =>
    .ok (match h.calculate_price_per_square_foot, m.calculate_average_price none with
      | .ok ppsf, .ok avgPrice =>
        let avail := m.houses.filter (fun hh => hh.available)
        let avgSize : ℚ := (avail.map House.area).sum / (avail.length : ℚ)
        if avgSize = 0 then false
        else decide (ppsf < avgPrice / avgSize)
      | _, _ => false)
  | .AVERAGE =>
    .ok (match m.calculate_average_price none with
      | .ok avgPrice => decide (h.price ≤ avgPrice)
      | .error _ => false)

/-- One loop iteration of `get_houses_that_meet_requirements`: unavailable or
too-expensive houses are skipped before any segment logic runs. -/
def checkHouse (m : HousingMarket) (max_price : ℚ) (segment : Segment) (h : House) :
    Except String Bool :=
  if !h.available || h.price > max_price then .ok false
  else checkSegment m segment h

/-- The `for` loop of `get_houses_that_meet_requirements`: houses are kept in
order when the check returns `true`; an uncaught error aborts the whole call. -/
def filterHouses (p : House → Except String Bool) : List House → Except String (List House)
  | [] => .ok []
  | h :: rest =>
    match p h with
    | .error e => .error e
    | .ok b =>
      match filterHouses p rest with
      | .error e => .error e
      | .ok r => .ok (if b then h :: r else r)

/-- `HousingMarket.get_houses_that_meet_requirements` from `house_market.py`. -/
def HousingMarket.get_houses_that_meet_requirements (m : HousingMarket) (max_price : ℚ)
    (segment : Segment) : Except String (List House) :=
  if max_price ≤ 0 then .error "Maximum price must be positive"
  else filterHouses (checkHouse m max_price segment) m.houses

/-- `Consumer` dataclass from `consumers.py`. -/
structure Consumer where
  id : ℕ
  annual_income : ℚ
  children_number : ℕ
  segment : Segment
  house : Option House
  savings : ℚ
  saving_rate : ℚ
  interest_rate : ℚ
deriving DecidableEq, Repr

/-- The `for _ in range(years)` loop of `Consumer.compute_savings`: each year
adds the annual contribution, then applies interest. -/
def savingsLoop (contribution interest : ℚ) : ℕ → ℚ → ℚ
  | 0, s => s
  | n + 1, s => savingsLoop contribution interest n ((s + contribution) * (1 + interest))

/-- `Consumer.compute_savings` from `consumers.py`.  The final value is
rounded to 2 decimal places whatever the number of years. -/
def Consumer.compute_savings (c : Consumer) (years : ℤ) : Except String Consumer :=
  if years < 0 then .error "Years cannot be negative"
  else .ok { c with
    savings := round2 (savingsLoop (c.annual_income * c.saving_rate)
      c.interest_rate years.toNat c.savings) }

/-- `Consumer.buy_a_house` from `consumers.py`.  The in-place
`selected_house.sell_house()` is modelled by flipping `available` on the
house with the selected id inside the market and storing the sold copy in
the consumer. -/
def Consumer.buy_a_house (c : Consumer) (m : HousingMarket) :
    Except String (Consumer × HousingMarket) :=
  match c.house with
  | some _ => .ok (c, m)
  | none =>
    match m.get_houses_that_meet_requirements (c.savings * 5) c.segment with
    | .error e => .error e
    | .ok [] => .ok (c, m)
    | .ok (selected :: _) =>
      .ok ({ c with house := some selected.sell_house,
                    savings := c.savings - selected.price * 0.2 },
           ⟨m.houses.map (fun h => if h.id = selected.id then h.sell_house else h)⟩)

/-- `CleaningMarketMechanism` from `simulation.py`. -/
inductive CleaningMarketMechanism where
  | INCOME_ORDER_DESCENDANT
  | INCOME_ORDER_ASCENDANT
  | RANDOM
deriving DecidableEq, Repr

/-- Stable insertion used to model Python's stable
`sort(key=income, reverse=True)`. -/
def insertByIncomeDesc (c : Consumer) : List Consumer → List Consumer
  | [] => [c]
  | d :: rest =>
    if c.annual_income ≥ d.annual_income then c :: d :: rest
    else d :: insertByIncomeDesc c rest

/-- Stable insertion used to model Python's stable `sort(key=income)`. -/
def insertByIncomeAsc (c : Consumer) : List Consumer → List Consumer
  | [] => [c]
  | d :: rest =>
    if c.annual_income ≤ d.annual_income then c :: d :: rest
    else d :: insertByIncomeAsc c rest

/-- The ordering step of `Simulation.clean_the_market`.  `RANDOM` is a
`shuffle`; its outcome is modelled here as the identity permutation, and the
clearing invariants are proved for every processing order, which covers
every possible shuffle outcome. -/
def orderConsumers (mech : CleaningMarketMechanism) (consumers : List Consumer) :
    List Consumer :=
  match mech with
  | .INCOME_ORDER_DESCENDANT => consumers.foldr insertByIncomeDesc []
  | .INCOME_ORDER_ASCENDANT => consumers.foldr insertByIncomeAsc []
  | .RANDOM => consumers

/-- The purchase loop of `Simulation.clean_the_market`: each consumer in
order attempts to buy against the shared, evolving market. -/
def processConsumers (m : HousingMarket) :
    List Consumer → Except String (List Consumer × HousingMarket)
  | [] => .ok ([], m)
  | c :: rest =>
    match c.buy_a_house m with
    | .error e => .error e
    | .ok (c2, m2) =>
      match processConsumers m2 rest with
      | .error e => .error e
      | .ok (cs, mf) => .ok (c2 :: cs, mf)

/-- `Simulation.clean_the_market` from `simulation.py` (the consumer list and
the market are the `Simulation` state it reads and writes). -/
def clean_the_market (mech : CleaningMarketMechanism) (consumers : List Consumer)
    (m : HousingMarket) : Except String (List Consumer × HousingMarket) :=
  processConsumers m (orderConsumers mech consumers)

/-- One raw field of a raw market record: absent (`KeyError`), present but
failing numeric conversion (`ValueError`), or convertible to a value. -/
inductive RawField (α : Type) where
  | missing
  | invalid
  | val (a : α)
deriving DecidableEq, Repr

/-- `RawField` to `Option`, keeping only convertible values. -/
def RawField.toOption {α : Type} : RawField α → Option α
  | .missing => none
  | .invalid => none
  | .val a => some a

/-- Whether the field is present but fails numeric conversion. -/
def RawField.isInvalid {α : Type} : RawField α → Bool
  | .invalid => true
  | _ => false

/-- A raw market record as consumed by `Simulation.create_housing_market`:
the four required numeric fields and the optional `overall_qual` field. -/
structure RawRecord where
  sale_price : RawField ℚ
  gr_liv_area : RawField ℚ
  bedroom_abv_gr : RawField ℤ
  year_built : RawField ℤ
  overall_qual : RawField ℤ
deriving DecidableEq, Repr

/-- The 1-10 → 5-level mapping inside `Simulation.create_housing_market`. -/
def qualityFromOverall (score_value : ℤ) : QualityScore :=
  if score_value ≤ 2 then .POOR
  else if score_value ≤ 4 then .FAIR
  else if score_value ≤ 6 then .AVERAGE
  else if score_value ≤ 8 then .GOOD
  else .EXCELLENT

/-- The `overall_qual` handling of `create_housing_market`: an absent field
gives no quality score, a present but unconvertible one aborts the record. -/
def parseQuality : RawField ℤ → Option (Option QualityScore)
  | .missing => some none
  | .invalid => none
  | .val v => some (some (qualityFromOverall v))

/-- The `try` body of `create_housing_market` for one record: any missing
required field or failed conversion aborts just this record. -/
def parseHouse (idx : ℕ) (d : RawRecord) : Option House :=
  match parseQuality d.overall_qual with
  | none => none
  | some qs =>
    match d.sale_price.toOption, d.gr_liv_area.toOption,
      d.bedroom_abv_gr.toOption, d.year_built.toOption with
    | some p, some a, some b, some y =>
      some { id := idx, price := p, area := a, bedrooms := b, year_built := y,
             quality_score := qs, available := true }
    | _, _, _, _ => none

/-- The `for idx, data in enumerate(...)` loop of `create_housing_market`:
records that parse become houses, the others are skipped. -/
def buildHouses (idx : ℕ) : List RawRecord → List House
  | [] => []
  | d :: rest =>
    match parseHouse idx d with
    | some h => h :: buildHouses (idx + 1) rest
    | none => buildHouses (idx + 1) rest

/-- `Simulation.create_housing_market` from `simulation.py`. -/
def create_housing_market (records : List RawRecord) : HousingMarket :=
  ⟨buildHouses 0 records⟩

/-- A record is well-formed when the four required fields are present and
convertible and `overall_qual`, if present, converts. -/
def recordValid (d : RawRecord) : Bool :=
  d.sale_price.toOption.isSome && d.gr_liv_area.toOption.isSome &&
  d.bedroom_abv_gr.toOption.isSome && d.year_built.toOption.isSome &&
  !d.overall_qual.isInvalid

/-- Market evolution during clearing: same houses at the same positions
(ids preserved), with availability only ever flipping from `true` to
`false`. -/
def HousingMarket.evolvesTo (m m' : HousingMarket) : Prop :=
  m'.houses.length = m.houses.length ∧
  ∀ i (hi : i < m.houses.length) (hi' : i < m'.houses.length),
    (m'.houses.get ⟨i, hi'⟩).id = (m.houses.get ⟨i, hi⟩).id ∧
    ((m'.houses.get ⟨i, hi'⟩).available = true → (m.houses.get ⟨i, hi⟩).available = true)

/-- Some house with the given id is still available in the market. -/
def availIn (m : HousingMarket) (hid : ℕ) : Prop :=
  ∃ h, h ∈ m.houses ∧ h.id = hid ∧ h.available = true

lemma savingsLoop_eq_iterate (con i : ℚ) (n : ℕ) (s : ℚ) :
    savingsLoop con i n s = (fun x => (x + con) * (1 + i))^[n] s := by
  induction n generalizing s with
  | zero => rfl
  | succ k ih => rw [savingsLoop, ih, Function.iterate_succ_apply]

/-- C3: `compute_savings(years)` errors exactly for negative `years` (the
consumer is untouched then), and otherwise performs, year by year, the
add-contribution-then-apply-interest update, rounding the final value to 2
decimal places. -/
theorem claim_C3 (c : Consumer) (years : ℤ) :
    (years < 0 → c.compute_savings years = .error "Years cannot be negative") ∧
    (0 ≤ years → c.compute_savings years = .ok { c with
      savings := round2
        ((fun s => (s + c.annual_income * c.saving_rate) *
          (1 + c.interest_rate))^[years.toNat] c.savings) }) := by
  constructor
  · intro hneg
    rw [Consumer.compute_savings, if_pos hneg]
  · intro hpos
    rw [Consumer.compute_savings, if_neg (by omega), savingsLoop_eq_iterate]

theorem claim_C3_witness :
    Consumer.compute_savings
        ⟨0, 1000, 0, Segment.AVERAGE, none, 500, 3/10, 1/20⟩ (-1) =
      .error "Years cannot be negative" ∧
    Consumer.compute_savings
        ⟨0, 1000, 0, Segment.AVERAGE, none, 500, 3/10, 1/20⟩ 2 =
      .ok ⟨0, 1000, 0, Segment.AVERAGE, none,
        round2 ((fun s => (s + 1000 * (3/10)) * (1 + 1/20))^[(2:ℤ).toNat] 500),
        3/10, 1/20⟩ :=
  ⟨(claim_C3 ⟨0, 1000, 0, Segment.AVERAGE, none, 500, 3/10, 1/20⟩ (-1)).1 (by decide),
   (claim_C3 ⟨0, 1000, 0, Segment.AVERAGE, none, 500, 3/10, 1/20⟩ 2).2 (by decide)⟩

set_option maxRecDepth 4000 in
/-- C7 counterexample: a consumer whose savings is `0.125` does not keep it
unchanged under `compute_savings(0)`: the trailing `round(..., 2)` turns it
into `0.12`. -/
theorem claim_C7_cex :
    Consumer.compute_savings ⟨0, 1000, 0, Segment.AVERAGE, none, 1/8, 3/10, 1/20⟩ 0 =
      .ok ⟨0, 1000, 0, Segment.AVERAGE, none, 3/25, 3/10, 1/20⟩ ∧
    (3/25 : ℚ) ≠ 1/8 := by
  constructor
  · with_unfolding_all decide
  · with_unfolding_all decide

/-- C7 (amended): `compute_savings(0)` performs no accumulation, only the
final rounding; it leaves savings unchanged for every consumer whose savings
already equals its 2-decimal rounding (in particular the initial `0.0`). -/
theorem claim_C7 (c : Consumer) (hr : round2 c.savings = c.savings) :
    c.compute_savings 0 = .ok c := by
  rw [Consumer.compute_savings, if_neg (by omega)]
  simp only [Int.toNat_zero, savingsLoop, hr]

theorem claim_C7_witness :
    Consumer.compute_savings ⟨0, 1000, 0, Segment.AVERAGE, none, 0, 3/10, 1/20⟩ 0 =
      .ok ⟨0, 1000, 0, Segment.AVERAGE, none, 0, 3/10, 1/20⟩ :=
  claim_C7 ⟨0, 1000, 0, Segment.AVERAGE, none, 0, 3/10, 1/20⟩ (by with_unfolding_all decide)

/-- C10: a consumer without a house and with non-positive savings makes
`buy_a_house` raise: the `max_price ≤ 0` validation error of
`get_houses_that_meet_requirements` propagates. -/
theorem claim_C10 (c : Consumer) (m : HousingMarket) (hh : c.house = none)
    (hs : c.savings ≤ 0) : c.buy_a_house m = .error "Maximum price must be positive" := by
  have h5 : c.savings * 5 ≤ 0 := by nlinarith
  rw [Consumer.buy_a_house, hh, HousingMarket.get_houses_that_meet_requirements,
    if_pos h5]

theorem claim_C10_witness :
    Consumer.buy_a_house ⟨0, 1000, 0, Segment.AVERAGE, none, 0, 3/10, 1/20⟩ ⟨[]⟩ =
      .error "Maximum price must be positive" :=
  claim_C10 ⟨0, 1000, 0, Segment.AVERAGE, none, 0, 3/10, 1/20⟩ ⟨[]⟩ rfl (by decide)

lemma filterHouses_ok_mem {p : House → Except String Bool} :
    ∀ {l r : List House}, filterHouses p l = .ok r →
      ∀ x ∈ r, x ∈ l ∧ p x = .ok true := by
  intro l
  induction l with
  | nil =>
    intro r hr x hx
    rw [filterHouses] at hr
    cases hr
    cases hx
  | cons hd tl ih =>
    intro r hr x hx
    rw [filterHouses] at hr
    cases hp : p hd with
    | error e => rw [hp] at hr; cases hr
    | ok b =>
      rw [hp] at hr
      cases ht : filterHouses p tl with
      | error e => rw [ht] at hr; cases hr
      | ok rt =>
        rw [ht] at hr
        cases hr
        by_cases hb : b = true
        · subst hb
          simp only [if_pos rfl] at hx ⊢
          rcases List.mem_cons.mp hx with hxh | hxt
          · subst hxh; exact ⟨List.mem_cons_self _ _, hp⟩
          · rcases ih ht x hxt with ⟨hmem, hpx⟩
            exact ⟨List.mem_cons_of_mem _ hmem, hpx⟩
        · rw [Bool.not_eq_true] at hb
          subst hb
          simp only [Bool.false_eq_true, if_neg] at hx
          rcases ih ht x (by simpa using hx) with ⟨hmem, hpx⟩
          exact ⟨List.mem_cons_of_mem _ hmem, hpx⟩

lemma mem_get_houses {m : HousingMarket} {max_price : ℚ} {seg : Segment}
    {r : List House} (h : m.get_houses_that_meet_requirements max_price seg = .ok r) :
    ∀ x ∈ r, x ∈ m.houses ∧ x.available = true ∧ x.price ≤ max_price := by
  intro x hx
  rw [HousingMarket.get_houses_that_meet_requirements] at h
  by_cases hmp : max_price ≤ 0
  · rw [if_pos hmp] at h; cases h
  · rw [if_neg hmp] at h
    rcases filterHouses_ok_mem h x hx with ⟨hmem, hpx⟩
    rw [checkHouse] at hpx
    by_cases hcond : (!x.available || x.price > max_price) = true
    · rw [if_pos hcond] at hpx
      cases hpx
    · rw [if_neg hcond] at hpx
      simp only [Bool.or_eq_true, Bool.not_eq_true', decide_eq_true_eq, not_or,
        not_lt] at hcond
      exact ⟨hmem, by simpa using hcond.1, hcond.2⟩

/-- C2: `buy_a_house` is a no-op for an owner; otherwise it queries the
market with `max_price = savings × 5` and the consumer's segment, buys
exactly the first returned house (marking it sold and storing it), and
deducts exactly `price × 0.2` from savings. -/
theorem claim_C2 (c : Consumer) (m : HousingMarket) :
    (∀ h0, c.house = some h0 → c.buy_a_house m = .ok (c, m)) ∧
    (c.house = none →
      (m.get_houses_that_meet_requirements (c.savings * 5) c.segment = .ok [] →
        c.buy_a_house m = .ok (c, m)) ∧
      (∀ sel rest,
        m.get_houses_that_meet_requirements (c.savings * 5) c.segment = .ok (sel :: rest) →
        c.buy_a_house m = .ok
          ({ c with house := some sel.sell_house,
                    savings := c.savings - sel.price * 0.2 },
           ⟨m.houses.map (fun h => if h.id = sel.id then h.sell_house else h)⟩))) := by
  refine ⟨fun h0 hh => ?_, fun hh => ⟨fun hq => ?_, fun sel rest hq => ?_⟩⟩
  · rw [Consumer.buy_a_house, hh]
  · rw [Consumer.buy_a_house, hh, hq]
  · rw [Consumer.buy_a_house, hh, hq]

set_option maxRecDepth 8000 in
theorem claim_C2_witness :
    Consumer.buy_a_house ⟨1, 50000, 0, Segment.AVERAGE, none, 40000, 3/10, 1/20⟩
        ⟨[⟨7, 150000, 1500, 3, 2000, some QualityScore.AVERAGE, true⟩]⟩ =
      .ok (⟨1, 50000, 0, Segment.AVERAGE,
              some ⟨7, 150000, 1500, 3, 2000, some QualityScore.AVERAGE, false⟩,
              40000 - 150000 * 0.2, 3/10, 1/20⟩,
            ⟨[⟨7, 150000, 1500, 3, 2000, some QualityScore.AVERAGE, false⟩]⟩) :=
  ((claim_C2 ⟨1, 50000, 0, Segment.AVERAGE, none, 40000, 3/10, 1/20⟩
      ⟨[⟨7, 150000, 1500, 3, 2000, some QualityScore.AVERAGE, true⟩]⟩).2 rfl).2
    ⟨7, 150000, 1500, 3, 2000, some QualityScore.AVERAGE, true⟩ []
    (by with_unfolding_all rfl)

/-- C6: starting from non-negative savings, `buy_a_house` can never drive
savings negative: the only deduction is `price × 0.2` on a purchase, and the
market's price filter guarantees `price ≤ savings × 5`. -/
theorem claim_C6 (c : Consumer) (m : HousingMarket) (c' : Consumer) (m' : HousingMarket)
    (hs : 0 ≤ c.savings) (hb : c.buy_a_house m = .ok (c', m')) : 0 ≤ c'.savings := by
  rw [Consumer.buy_a_house] at hb
  cases hh : c.house with
  | some h0 =>
    rw [hh] at hb
    cases hb
    exact hs
  | none =>
    rw [hh] at hb
    cases hq : m.get_houses_that_meet_requirements (c.savings * 5) c.segment with
    | error e => rw [hq] at hb; cases hb
    | ok r =>
      rw [hq] at hb
      cases r with
      | nil => cases hb; exact hs
      | cons sel rest =>
        cases hb
        have hple : sel.price ≤ c.savings * 5 :=
          (mem_get_houses hq sel (List.mem_cons_self _ _)).2.2
        show 0 ≤ c.savings - sel.price * 0.2
        nlinarith

theorem claim_C6_witness :
    (0:ℚ) ≤ (Consumer.mk 2 60000 1 Segment.AVERAGE
      (some ⟨9, 150000, 1500, 3, 2000, some QualityScore.AVERAGE, false⟩)
      10000 (3/10) (1/20)).savings :=
  claim_C6 ⟨2, 60000, 1, Segment.AVERAGE, none, 40000, 3/10, 1/20⟩
    ⟨[⟨9, 150000, 1500, 3, 2000, some QualityScore.AVERAGE, true⟩]⟩
    (Consumer.mk 2 60000 1 Segment.AVERAGE
      (some ⟨9, 150000, 1500, 3, 2000, some QualityScore.AVERAGE, false⟩)
      10000 (3/10) (1/20))
    ⟨[⟨9, 150000, 1500, 3, 2000, some QualityScore.AVERAGE, false⟩]⟩
    (by decide) (by with_unfolding_all rfl)

lemma filterHouses_mem_error {p : House → Except String Bool} {x : House}
    {l : List House} (hx : x ∈ l) (hpx : ∃ e, p x = .error e) :
    ∃ e, filterHouses p l = .error e := by
  induction l with
  | nil => cases hx
  | cons hd tl ih =>
    rw [filterHouses]
    cases hph : p hd with
    | error e => exact ⟨e, rfl⟩
    | ok b =>
      rcases List.mem_cons.mp hx with hxh | hxt
      · rcases hpx with ⟨e, he⟩
        rw [← hxh] at hph
        rw [he] at hph
        cases hph
      · rcases ih hxt with ⟨e, he⟩
        rw [he]
        exact ⟨e, rfl⟩

/-- C4 counterexample: with segment `FANCY`, an available, affordable house
whose `year_built` fails validation makes the eligibility query raise the
`ValueError` instead of excluding the house. -/
theorem claim_C4_cex :
    HousingMarket.get_houses_that_meet_requirements
      ⟨[⟨0, 100000, 1000, 3, 1700, some QualityScore.EXCELLENT, true⟩]⟩
      200000 Segment.FANCY = .error "Year built cannot be before 1800" := by
  with_unfolding_all rfl

/-- C4 (amended): with segment `FANCY` the `is_new_construction` validation
error is not caught: whenever some available house within the price bound has
an out-of-range `year_built`, the whole eligibility query raises. -/
theorem claim_C4 (m : HousingMarket) (max_price : ℚ) (x : House)
    (hmp : 0 < max_price) (hmem : x ∈ m.houses) (hav : x.available = true)
    (hpr : x.price ≤ max_price)
    (hyr : x.year_built < 1800 ∨ 2024 < x.year_built) :
    ∃ e, m.get_houses_that_meet_requirements max_price Segment.FANCY = .error e := by
  rw [HousingMarket.get_houses_that_meet_requirements, if_neg (not_le.mpr hmp)]
  refine filterHouses_mem_error hmem ?_
  have hnew : ∃ e, x.is_new_construction 2024 = .error e := by
    rw [House.is_new_construction]
    by_cases hgt : x.year_built > 2024
    · exact ⟨_, by rw [if_pos hgt]⟩
    · rcases hyr with h1 | h2
      · exact ⟨_, by rw [if_neg hgt, if_pos h1]⟩
      · exact absurd h2 hgt
  rcases hnew with ⟨e, he⟩
  refine ⟨e, ?_⟩
  rw [checkHouse, if_neg ?_, checkSegment, he]
  simp [hav, not_lt.mpr hpr]

theorem claim_C4_witness :
    ∃ e, HousingMarket.get_houses_that_meet_requirements
      ⟨[⟨1, 500, 10, 2, 2030, none, true⟩]⟩ 1000 Segment.FANCY = .error e :=
  claim_C4 ⟨[⟨1, 500, 10, 2, 2030, none, true⟩]⟩ 1000
    ⟨1, 500, 10, 2, 2030, none, true⟩ (by decide) (by simp) rfl (by decide)
    (Or.inr (by decide))

lemma filterHouses_eq_filter (p : House → Except String Bool) (q : House → Bool) :
    ∀ l : List House, (∀ x ∈ l, p x = .ok (q x)) →
      filterHouses p l = .ok (l.filter q) := by
  intro l
  induction l with
  | nil => intro _; rfl
  | cons hd tl ih =>
    intro h
    rw [filterHouses, h hd (List.mem_cons_self _ _),
      ih (fun x hx => h x (List.mem_cons_of_mem _ hx)), List.filter_cons]

lemma checkHouse_eq (m : HousingMarket) (max_price : ℚ) (seg : Segment) (x : House)
    (b : Bool)
    (h : x.available = true → x.price ≤ max_price → checkSegment m seg x = .ok b) :
    checkHouse m max_price seg x =
      .ok (x.available && decide (x.price ≤ max_price) && b) := by
  rw [checkHouse]
  by_cases hskip : (!x.available || x.price > max_price) = true
  · rw [if_pos hskip]
    rcases Bool.or_eq_true_iff.mp hskip with hna | hgt
    · have hf : x.available = false := by simpa using hna
      simp [hf]
    · have hnle : ¬ x.price ≤ max_price := not_le.mpr (by simpa using hgt)
      simp [hnle]
  · rw [if_neg hskip]
    simp only [Bool.or_eq_true, not_or] at hskip
    have hav : x.available = true := by simpa using hskip.1
    have hle : x.price ≤ max_price := not_lt.mp (by simpa using hskip.2)
    rw [h hav hle]
    simp [hav, hle]

/-- C5 counterexample: the eligibility query can raise even when
`max_price > 0`: under `FANCY`, a future `year_built` escapes as a
`ValueError`, so "raises exactly when maxPrice ≤ 0" fails. -/
theorem claim_C5_cex :
    HousingMarket.get_houses_that_meet_requirements
      ⟨[⟨3, 100, 10, 2, 2030, some QualityScore.EXCELLENT, true⟩]⟩
      500 Segment.FANCY = .error "Year built cannot be in the future" := by
  with_unfolding_all rfl

/-- C5 (amended): `get_houses_that_meet_requirements` raises the validation
error exactly when `max_price ≤ 0` for segments `AVERAGE` and `OPTIMIZER`,
and for them returns, in the market's original list order, exactly the
available houses with `price ≤ max_price` satisfying the segment rule —
`AVERAGE`: price at most the average price over available houses, an
empty-market average failure excluding the house; `OPTIMIZER`: price per
square foot strictly below average price over average area of available
houses, any computation failure (empty market, zero average area) excluding
the house.  For `FANCY` an invalid `year_built` among the available houses
within the price bound additionally raises; when every such house has
`year_built` in `[1800, 2024]`, the query likewise returns exactly the
available in-budget houses that are new construction with the `EXCELLENT`
score. -/
theorem claim_C5 (m : HousingMarket) (max_price : ℚ) :
    (max_price ≤ 0 → ∀ seg, m.get_houses_that_meet_requirements max_price seg =
      .error "Maximum price must be positive") ∧
    (0 < max_price →
      (m.get_houses_that_meet_requirements max_price Segment.AVERAGE =
        .ok (m.houses.filter (fun h => h.available && decide (h.price ≤ max_price) &&
          (match m.calculate_average_price none with
           | .ok avgPrice => decide (h.price ≤ avgPrice)
           | .error _ => false)))) ∧
      (m.get_houses_that_meet_requirements max_price Segment.OPTIMIZER =
        .ok (m.houses.filter (fun h => h.available && decide (h.price ≤ max_price) &&
          (match h.calculate_price_per_square_foot, m.calculate_average_price none with
           | .ok ppsf, .ok avgPrice =>
             let avail := m.houses.filter (fun hh => hh.available)
             let avgSize : ℚ := (avail.map House.area).sum / (avail.length : ℚ)
             if avgSize = 0 then false
             else decide (ppsf < avgPrice / avgSize)
           | _, _ => false)))) ∧
      ((∀ x ∈ m.houses, x.available = true → x.price ≤ max_price →
          1800 ≤ x.year_built ∧ x.year_built ≤ 2024) →
        m.get_houses_that_meet_requirements max_price Segment.FANCY =
          .ok (m.houses.filter (fun h => h.available && decide (h.price ≤ max_price) &&
            (decide (2024 - h.year_built < 5) &&
             h.quality_score == some QualityScore.EXCELLENT))))) := by
  constructor
  · intro hmp seg
    rw [HousingMarket.get_houses_that_meet_requirements, if_pos hmp]
  · intro hmp
    refine ⟨?_, ?_, fun hyr => ?_⟩
    · rw [HousingMarket.get_houses_that_meet_requirements, if_neg (not_le.mpr hmp)]
      refine filterHouses_eq_filter _ _ _ ?_
      intro x _
      exact checkHouse_eq m max_price Segment.AVERAGE x _ (fun _ _ => rfl)

    · rw [HousingMarket.get_houses_that_meet_requirements, if_neg (not_le.mpr hmp)]
      refine filterHouses_eq_filter _ _ _ ?_
      intro x _
      exact checkHouse_eq m max_price Segment.OPTIMIZER x _ (fun _ _ => rfl)
    · rw [HousingMarket.get_houses_that_meet_requirements, if_neg (not_le.mpr hmp)]
      refine filterHouses_eq_filter _ _ _ ?_
      intro x hx
      refine checkHouse_eq m max_price Segment.FANCY x _ ?_
      intro hav hle
      obtain ⟨hy1, hy2⟩ := hyr x hx hav hle
      rw [checkSegment, House.is_new_construction, if_neg (not_lt.mpr hy2),
        if_neg (not_lt.mpr hy1)]

theorem claim_C5_witness :
    HousingMarket.get_houses_that_meet_requirements
      ⟨[⟨0, 300, 20, 2, 1990, none, true⟩]⟩ 0 Segment.AVERAGE =
      .error "Maximum price must be positive" ∧
    HousingMarket.get_houses_that_meet_requirements
      ⟨[⟨0, 300, 20, 2, 1990, none, true⟩]⟩ 500 Segment.FANCY =
      .ok (([⟨0, 300, 20, 2, 1990, none, true⟩] : List House).filter
        (fun h => h.available && decide (h.price ≤ 500) &&
          (decide (2024 - h.year_built < 5) &&
           h.quality_score == some QualityScore.EXCELLENT))) :=
  ⟨(claim_C5 ⟨[⟨0, 300, 20, 2, 1990, none, true⟩]⟩ 0).1 (by decide) Segment.AVERAGE,
   ((claim_C5 ⟨[⟨0, 300, 20, 2, 1990, none, true⟩]⟩ 500).2 (by decide)).2.2 (by decide)⟩

/-- C8: `get_quality_score` is a no-op when the score is set; otherwise it
computes the weighted composite score — 30% age (linear over the 224-year
span from 1800), 40% size per bedroom (capped at 2× the 200 sq-ft baseline),
30% overall size (capped at 2× the 2000 sq-ft baseline) — which lies in
`[0,1]` for in-range attributes, and maps it through the 0.8/0.6/0.4/0.2
thresholds. -/
theorem claim_C8 (h : House) :
    (∀ q, h.quality_score = some q → h.get_quality_score = h) ∧
    (h.quality_score = none → h.get_quality_score =
      { h with quality_score := some (scoreToQuality h.quality_total_score) }) ∧
    (h.quality_total_score =
      0.3 * (1 - ((2024 : ℚ) - (h.year_built : ℚ)) / 224) +
      0.4 * min 1 ((h.area / ((max 1 h.bedrooms : ℤ) : ℚ)) / 400) +
      0.3 * min 1 (h.area / 4000)) ∧
    (1800 ≤ h.year_built → h.year_built ≤ 2024 → 0 ≤ h.area →
      0 ≤ h.quality_total_score ∧ h.quality_total_score ≤ 1) ∧
    (∀ t : ℚ,
      (0.8 ≤ t → scoreToQuality t = .EXCELLENT) ∧
      (0.6 ≤ t → t < 0.8 → scoreToQuality t = .GOOD) ∧
      (0.4 ≤ t → t < 0.6 → scoreToQuality t = .AVERAGE) ∧
      (0.2 ≤ t → t < 0.4 → scoreToQuality t = .FAIR) ∧
      (t < 0.2 → scoreToQuality t = .POOR)) := by
  have hformula : h.quality_total_score =
      0.3 * (1 - ((2024 : ℚ) - (h.year_built : ℚ)) / 224) +
      0.4 * min 1 ((h.area / ((max 1 h.bedrooms : ℤ) : ℚ)) / 400) +
      0.3 * min 1 (h.area / 4000) := by
    simp only [House.quality_total_score]
    norm_num
    ring
  refine ⟨?_, ?_, hformula, ?_, ?_⟩
  · intro q hq
    simp [House.get_quality_score, hq]
  · intro hq
    simp [House.get_quality_score, hq]
  · intro hy1 hy2 harea
    have hyq1 : (1800 : ℚ) ≤ (h.year_built : ℚ) := by exact_mod_cast hy1
    have hyq2 : ((h.year_built : ℚ)) ≤ 2024 := by exact_mod_cast hy2
    have hden : (1 : ℚ) ≤ ((max 1 h.bedrooms : ℤ) : ℚ) := by
      exact_mod_cast le_max_left 1 h.bedrooms
    have hx : 0 ≤ h.area / ((max 1 h.bedrooms : ℤ) : ℚ) :=
      div_nonneg harea (by linarith)
    have hage1 : 0 ≤ ((2024 : ℚ) - (h.year_built : ℚ)) / 224 :=
      div_nonneg (by linarith) (by norm_num)
    have hage2 : ((2024 : ℚ) - (h.year_built : ℚ)) / 224 ≤ 1 := by
      rw [div_le_one (by norm_num)]
      linarith
    have hb1 : (0:ℚ) ≤ min 1 ((h.area / ((max 1 h.bedrooms : ℤ) : ℚ)) / 400) :=
      le_min (by norm_num) (div_nonneg hx (by norm_num))
    have hb2 : min 1 ((h.area / ((max 1 h.bedrooms : ℤ) : ℚ)) / 400) ≤ 1 :=
      min_le_left _ _
    have hc1 : (0:ℚ) ≤ min 1 (h.area / 4000) :=
      le_min (by norm_num) (div_nonneg harea (by norm_num))
    have hc2 : min 1 (h.area / 4000) ≤ 1 := min_le_left _ _
    rw [hformula]
    constructor <;> nlinarith
  · intro t
    refine ⟨fun h1 => ?_, fun h1 h2 => ?_, fun h1 h2 => ?_, fun h1 h2 => ?_,
      fun h1 => ?_⟩
    · rw [scoreToQuality, if_pos h1]
    · rw [scoreToQuality, if_neg (not_le.mpr h2), if_pos h1]
    · rw [scoreToQuality, if_neg (not_le.mpr (by linarith)),
        if_neg (not_le.mpr h2), if_pos h1]
    · rw [scoreToQuality, if_neg (not_le.mpr (by linarith)),
        if_neg (not_le.mpr (by linarith)), if_neg (not_le.mpr h2), if_pos h1]
    · rw [scoreToQuality, if_neg (not_le.mpr (by linarith)),
        if_neg (not_le.mpr (by linarith)), if_neg (not_le.mpr (by linarith)),
        if_neg (not_le.mpr h1)]

theorem claim_C8_witness :
    House.get_quality_score ⟨4, 100000, 1600, 3, 2024, none, true⟩ =
      { id := 4, price := 100000, area := 1600, bedrooms := 3, year_built := 2024,
        quality_score := some (scoreToQuality
          (House.quality_total_score ⟨4, 100000, 1600, 3, 2024, none, true⟩)),
        available := true } ∧
    (0 ≤ House.quality_total_score ⟨4, 100000, 1600, 3, 2024, none, true⟩ ∧
      House.quality_total_score ⟨4, 100000, 1600, 3, 2024, none, true⟩ ≤ 1) ∧
    scoreToQuality (17/20) = QualityScore.EXCELLENT :=
  ⟨(claim_C8 ⟨4, 100000, 1600, 3, 2024, none, true⟩).2.1 rfl,
   (claim_C8 ⟨4, 100000, 1600, 3, 2024, none, true⟩).2.2.2.1 (by decide) (by decide)
     (by decide),
   ((claim_C8 ⟨4, 100000, 1600, 3, 2024, none, true⟩).2.2.2.2 (17/20)).1
     (by with_unfolding_all decide)⟩

lemma parseHouse_isSome (i : ℕ) (d : RawRecord) :
    (parseHouse i d).isSome = recordValid d := by
  rcases d with ⟨sp, ar, br, yb, oq⟩
  cases sp <;> cases ar <;> cases br <;> cases yb <;> cases oq <;>
    simp [parseHouse, parseQuality, RawField.toOption, RawField.isInvalid, recordValid]

lemma buildHouses_length_le (i : ℕ) (l : List RawRecord) :
    (buildHouses i l).length ≤ l.length := by
  induction l generalizing i with
  | nil => exact Nat.le_refl _
  | cons d tl ih =>
    rw [buildHouses]
    cases parseHouse i d with
    | some hh => simpa using ih (i + 1)
    | none => exact Nat.le_succ_of_le (ih (i + 1))

lemma buildHouses_length_of_valid (i : ℕ) (l : List RawRecord)
    (h : ∀ d ∈ l, recordValid d = true) :
    (buildHouses i l).length = l.length := by
  induction l generalizing i with
  | nil => rfl
  | cons d tl ih =>
    have hv : (parseHouse i d).isSome = true := by
      rw [parseHouse_isSome]
      exact h d (List.mem_cons_self _ _)
    rw [buildHouses]
    cases hp : parseHouse i d with
    | some hh => simp [ih (i + 1) (fun x hx => h x (List.mem_cons_of_mem _ hx))]
    | none => rw [hp] at hv; cases hv

lemma buildHouses_length_lt (i : ℕ) (l : List RawRecord) (d : RawRecord)
    (hd : d ∈ l) (hv : recordValid d = false) :
    (buildHouses i l).length < l.length := by
  induction l generalizing i with
  | nil => cases hd
  | cons hd0 tl ih =>
    rw [buildHouses]
    rcases List.mem_cons.mp hd with rfl | hdt
    · have : (parseHouse i d).isSome = false := by rw [parseHouse_isSome, hv]
      cases hp : parseHouse i d with
      | some hh => rw [hp] at this; cases this
      | none =>
        exact Nat.lt_succ_of_le (buildHouses_length_le (i + 1) tl)
    · cases hp : parseHouse i hd0 with
      | some hh => simpa using ih (i + 1) hdt
      | none => exact Nat.lt_succ_of_lt (ih (i + 1) hdt)

/-- C9: `create_housing_market` never raises (it is a total function here),
builds exactly N houses from N records when all are well-formed, and strictly
fewer — skipping bad records individually — when some record is missing a
required field or fails conversion. -/
theorem claim_C9 (records : List RawRecord) :
    (create_housing_market records).houses.length ≤ records.length ∧
    ((∀ d ∈ records, recordValid d = true) →
      (create_housing_market records).houses.length = records.length) ∧
    (∀ d ∈ records, recordValid d = false →
      (create_housing_market records).houses.length < records.length) := by
  refine ⟨buildHouses_length_le 0 records,
    fun h => buildHouses_length_of_valid 0 records h,
    fun d hd hv => buildHouses_length_lt 0 records d hd hv⟩

theorem claim_C9_witness :
    (create_housing_market
      [⟨.val 100, .val 10, .val 2, .val 1990, .missing⟩,
       ⟨.val 200, .val 20, .val 3, .val 2000, .val 7⟩]).houses.length = 2 ∧
    (create_housing_market
      [⟨.val 100, .val 10, .val 2, .val 1990, .missing⟩,
       ⟨.missing, .val 20, .val 3, .val 2000, .invalid⟩]).houses.length < 2 :=
  ⟨(claim_C9 _).2.1 (by decide),
   (claim_C9 _).2.2 ⟨.missing, .val 20, .val 3, .val 2000, .invalid⟩
     (by decide) (by decide)⟩

lemma evolvesTo_refl (m : HousingMarket) : m.evolvesTo m :=
  ⟨rfl, fun _ _ _ => ⟨rfl, fun hv => hv⟩⟩

lemma evolvesTo_trans {m m2 m3 : HousingMarket} (h12 : m.evolvesTo m2)
    (h23 : m2.evolvesTo m3) : m.evolvesTo m3 := by
  obtain ⟨hl12, hp12⟩ := h12
  obtain ⟨hl23, hp23⟩ := h23
  refine ⟨hl23.trans hl12, ?_⟩
  intro i hi hi'
  have hi2 : i < m2.houses.length := by omega
  obtain ⟨hid12, hav12⟩ := hp12 i hi hi2
  obtain ⟨hid23, hav23⟩ := hp23 i hi2 hi'
  exact ⟨hid23.trans hid12, fun hv => hav12 (hav23 hv)⟩

lemma availIn_mono {m m' : HousingMarket} (h : m.evolvesTo m') {hid : ℕ}
    (ha : availIn m' hid) : availIn m hid := by
  obtain ⟨hl, hp⟩ := h
  obtain ⟨x, hxmem, hxid, hxav⟩ := ha
  obtain ⟨⟨i, hi'⟩, hget⟩ := List.mem_iff_get.mp hxmem
  have hi : i < m.houses.length := by omega
  obtain ⟨hid2, hav2⟩ := hp i hi hi'
  refine ⟨m.houses.get ⟨i, hi⟩, List.get_mem _ _ _, ?_, ?_⟩
  · rw [← hid2, hget, hxid]
  · exact hav2 (by rw [hget, hxav])

lemma sell_map_evolvesTo (m : HousingMarket) (sid : ℕ) :
    m.evolvesTo ⟨m.houses.map (fun hh => if hh.id = sid then hh.sell_house else hh)⟩ := by
  refine ⟨by simp, ?_⟩
  intro i hi hi'
  simp only [List.get_eq_getElem, List.getElem_map]
  by_cases hid : (m.houses[i]).id = sid
  · rw [if_pos hid]
    exact ⟨rfl, fun hv => by cases hv⟩
  · rw [if_neg hid]
    exact ⟨rfl, fun hv => hv⟩

lemma sell_map_kills (m : HousingMarket) (sid : ℕ) :
    ¬ availIn ⟨m.houses.map (fun hh => if hh.id = sid then hh.sell_house else hh)⟩ sid := by
  rintro ⟨x, hxmem, hxid, hxav⟩
  rcases List.mem_map.mp hxmem with ⟨y, hymem, hyx⟩
  by_cases hyid : y.id = sid
  · rw [if_pos hyid] at hyx
    rw [← hyx] at hxav
    cases hxav
  · rw [if_neg hyid] at hyx
    rw [← hyx] at hxid
    exact hyid hxid

lemma buy_a_house_ok {c : Consumer} {m : HousingMarket} {c' : Consumer}
    {m' : HousingMarket} (h : c.buy_a_house m = .ok (c', m')) :
    (c' = c ∧ m' = m) ∨
    (c.house = none ∧ ∃ sel : House,
      c'.house = some sel.sell_house ∧
      availIn m sel.id ∧
      m'.houses = m.houses.map (fun hh => if hh.id = sel.id then hh.sell_house else hh)) := by
  rw [Consumer.buy_a_house] at h
  cases hh : c.house with
  | some h0 =>
    rw [hh] at h
    cases h
    exact Or.inl ⟨rfl, rfl⟩
  | none =>
    rw [hh] at h
    cases hq : m.get_houses_that_meet_requirements (c.savings * 5) c.segment with
    | error e => rw [hq] at h; cases h
    | ok r =>
      rw [hq] at h
      cases r with
      | nil =>
        cases h
        exact Or.inl ⟨rfl, rfl⟩
      | cons sel rest =>
        cases h
        obtain ⟨hmem, hav, _⟩ := mem_get_houses hq sel (List.mem_cons_self _ _)
        exact Or.inr ⟨rfl, sel, rfl, ⟨sel, hmem, rfl, hav⟩, rfl⟩

lemma buy_evolvesTo {c : Consumer} {m : HousingMarket} {c' : Consumer}
    {m' : HousingMarket} (h : c.buy_a_house m = .ok (c', m')) : m.evolvesTo m' := by
  rcases buy_a_house_ok h with ⟨_, rfl⟩ | ⟨_, sel, _, _, hmap⟩
  · exact evolvesTo_refl _
  · have := sell_map_evolvesTo m sel.id
    obtain ⟨m'h⟩ := m'
    cases hmap
    exact this

lemma buy_no_purchase {c : Consumer} {m : HousingMarket} {c' : Consumer}
    {m' : HousingMarket} (h : c.buy_a_house m = .ok (c', m'))
    (hn : c.house = none) {hh : House} (hsome : c'.house = some hh) :
    ∃ sel : House, c'.house = some sel.sell_house ∧ availIn m sel.id ∧
      m'.houses = m.houses.map (fun x => if x.id = sel.id then x.sell_house else x) := by
  rcases buy_a_house_ok h with ⟨rfl, rfl⟩ | ⟨_, sel, hch, hav, hmap⟩
  · rw [hn] at hsome; cases hsome
  · exact ⟨sel, hch, hav, hmap⟩

lemma processConsumers_spec :
    ∀ (cs : List Consumer) (m : HousingMarket) (cs' : List Consumer)
      (mf : HousingMarket), processConsumers m cs = .ok (cs', mf) →
      cs'.length = cs.length ∧
      m.evolvesTo mf ∧
      (∀ i (hi : i < cs.length) (hi' : i < cs'.length),
        (cs.get ⟨i, hi⟩).house = none →
        ∀ hh, (cs'.get ⟨i, hi'⟩).house = some hh →
          availIn m hh.id ∧ ¬ availIn mf hh.id) ∧
      (∀ i j (hi : i < cs.length) (hj : j < cs.length)
        (hi' : i < cs'.length) (hj' : j < cs'.length), i ≠ j →
        (cs.get ⟨i, hi⟩).house = none → (cs.get ⟨j, hj⟩).house = none →
        ∀ h1 h2, (cs'.get ⟨i, hi'⟩).house = some h1 →
          (cs'.get ⟨j, hj'⟩).house = some h2 → h1.id ≠ h2.id) := by
  intro cs
  induction cs with
  | nil =>
    intro m cs' mf h
    rw [processConsumers] at h
    cases h
    refine ⟨rfl, evolvesTo_refl m, ?_, ?_⟩
    · intro i hi
      simp at hi
    · intro i j hi
      simp at hi
  | cons c rest ih =>
    intro m cs' mf h
    rw [processConsumers] at h
    cases hb : c.buy_a_house m with
    | error e => rw [hb] at h; cases h
    | ok p =>
      obtain ⟨c2, m2⟩ := p
      rw [hb] at h
      dsimp only at h
      cases hrec : processConsumers m2 rest with
      | error e => rw [hrec] at h; cases h
      | ok q =>
        obtain ⟨csr, mrec⟩ := q
        rw [hrec] at h
        dsimp only at h
        cases h
        obtain ⟨hlen, hevo2, hidx, hpair⟩ := ih m2 csr _ hrec
        have hevo1 : m.evolvesTo m2 := buy_evolvesTo hb
        have hhead : ∀ hh : House, c.house = none → c2.house = some hh →
            availIn m2 hh.id = availIn m2 hh.id ∧
            availIn m hh.id ∧ ¬ availIn m2 hh.id := by
          intro hh hn hsome
          obtain ⟨sel, hch, hav, hmap⟩ := buy_no_purchase hb hn hsome
          rw [hch] at hsome
          injection hsome with hsel
          have hid : hh.id = sel.id := by rw [← hsel]; rfl
          refine ⟨rfl, ?_, ?_⟩
          · rw [hid]; exact hav
          · rw [hid]
            intro hcontra
            apply sell_map_kills m sel.id
            show availIn ⟨m.houses.map _⟩ sel.id
            rw [← hmap]
            exact hcontra
        refine ⟨by simp [hlen], evolvesTo_trans hevo1 hevo2, ?_, ?_⟩
        · intro i hi hi' hnone hh hsome
          cases i with
          | zero =>
            simp only [List.get] at hnone hsome
            obtain ⟨_, ha, hkill⟩ := hhead hh hnone hsome
            exact ⟨ha, fun hc => hkill (availIn_mono hevo2 hc)⟩
          | succ k =>
            have hk : k < rest.length := by simpa using hi
            have hk' : k < csr.length := by simpa using hi'
            simp only [List.get] at hnone hsome
            obtain ⟨ha, hnot⟩ := hidx k hk hk' hnone hh hsome
            exact ⟨availIn_mono hevo1 ha, hnot⟩
        · intro i j hi hj hi' hj' hij hinone hjnone h1 h2 hs1 hs2
          cases i with
          | zero =>
            cases j with
            | zero => exact absurd rfl hij
            | succ k =>
              have hk : k < rest.length := by simpa using hj
              have hk' : k < csr.length := by simpa using hj'
              simp only [List.get] at hinone hjnone hs1 hs2
              obtain ⟨_, _, hkill⟩ := hhead h1 hinone hs1
              obtain ⟨ha2, _⟩ := hidx k hk hk' hjnone h2 hs2
              intro hideq
              rw [hideq] at hkill
              exact hkill ha2
          | succ k =>
            cases j with
            | zero =>
              have hk : k < rest.length := by simpa using hi
              have hk' : k < csr.length := by simpa using hi'
              simp only [List.get] at hinone hjnone hs1 hs2
              obtain ⟨_, _, hkill⟩ := hhead h2 hjnone hs2
              obtain ⟨ha1, _⟩ := hidx k hk hk' hinone h1 hs1
              intro hideq
              rw [← hideq] at hkill
              exact hkill ha1
            | succ l =>
              have hk : k < rest.length := by simpa using hi
              have hk' : k < csr.length := by simpa using hi'
              have hl : l < rest.length := by simpa using hj
              have hl' : l < csr.length := by simpa using hj'
              simp only [List.get] at hinone hjnone hs1 hs2
              exact hpair k l hk hl hk' hl' (by omega) hinone hjnone h1 h2 hs1 hs2

lemma countP_avail_le :
    ∀ (l l' : List House), l'.length = l.length →
      (∀ i (hi : i < l.length) (hi' : i < l'.length),
        (l'.get ⟨i, hi'⟩).available = true → (l.get ⟨i, hi⟩).available = true) →
      l'.countP (fun x => x.available) ≤ l.countP (fun x => x.available) := by
  intro l
  induction l with
  | nil =>
    intro l' hlen _
    have h0 : l' = [] := List.eq_nil_of_length_eq_zero (by simpa using hlen)
    subst h0
    exact le_refl _
  | cons a t ih =>
    intro l' hlen hmono
    cases l' with
    | nil => simp at hlen
    | cons b u =>
      have hhead : b.available = true → a.available = true := by
        have := hmono 0 (by simp) (by simp)
        simpa using this
      have htail : u.countP (fun x => x.available) ≤ t.countP (fun x => x.available) := by
        refine ih u (by simpa using hlen) ?_
        intro i hi hi' hv
        have := hmono (i + 1) (by simpa using hi) (by simpa using hi')
        simp only [List.get] at this
        exact this hv
      simp only [List.countP_cons]
      by_cases hb : b.available = true
      · have ha := hhead hb
        simp only [hb, ha]
        simp
        omega
      · have hbf : b.available = false := by
          cases hba : b.available
          · rfl
          · exact absurd hba hb
        simp only [hbf]
        simp
        by_cases ha : a.available = true
        · simp [ha]
          omega
        · have haf : a.available = false := by
            cases haa : a.available
            · rfl
            · exact absurd haa ha
          simp [haf]
          omega

lemma mem_buildHouses_available :
    ∀ (l : List RawRecord) (i : ℕ) (x : House), x ∈ buildHouses i l →
      x.available = true := by
  intro l
  induction l with
  | nil =>
    intro i x hx
    cases hx
  | cons d tl ih =>
    intro i x hx
    rw [buildHouses] at hx
    cases hp : parseHouse i d with
    | some hh =>
      rw [hp] at hx
      rcases List.mem_cons.mp hx with hxh | hxt
      · subst hxh
        rw [parseHouse] at hp
        cases hq : parseQuality d.overall_qual with
        | none => rw [hq] at hp; cases hp
        | some qs =>
          rw [hq] at hp
          cases hsp : d.sale_price.toOption with
          | none => rw [hsp] at hp; cases hp
          | some p =>
            cases har : d.gr_liv_area.toOption with
            | none => rw [hsp, har] at hp; cases hp
            | some a =>
              cases hbr : d.bedroom_abv_gr.toOption with
              | none => rw [hsp, har, hbr] at hp; cases hp
              | some b =>
                cases hyb : d.year_built.toOption with
                | none => rw [hsp, har, hbr, hyb] at hp; cases hp
                | some y =>
                  rw [hsp, har, hbr, hyb] at hp
                  dsimp only at hp
                  injection hp with hp
                  rw [← hp]
      · exact ih (i + 1) x hxt
    | none =>
      rw [hp] at hx
      exact ih (i + 1) x hx

/-- C1: during market clearing (under any mechanism, in particular
`INCOME_ORDER_DESCENDANT`), availability only ever transitions from `true`
to `false` (never back), houses sold during clearing of a fully available
market never exceed the initially available count, and no house is assigned
to more than one consumer: any two distinct consumers entering the clearing
without a house that come out owning one, own houses with different ids. -/
theorem claim_C1 (mech : CleaningMarketMechanism) (consumers : List Consumer)
    (m : HousingMarket) (cs' : List Consumer) (mf : HousingMarket)
    (h : clean_the_market mech consumers m = .ok (cs', mf)) :
    m.evolvesTo mf ∧
    mf.houses.countP (fun x => x.available) ≤ m.houses.countP (fun x => x.available) ∧
    ((∀ x ∈ m.houses, x.available = true) →
      mf.houses.countP (fun x => !x.available) ≤ m.houses.countP (fun x => x.available)) ∧
    (∀ i j (hi : i < (orderConsumers mech consumers).length)
      (hj : j < (orderConsumers mech consumers).length)
      (hi' : i < cs'.length) (hj' : j < cs'.length), i ≠ j →
      ((orderConsumers mech consumers).get ⟨i, hi⟩).house = none →
      ((orderConsumers mech consumers).get ⟨j, hj⟩).house = none →
      ∀ h1 h2, (cs'.get ⟨i, hi'⟩).house = some h1 →
        (cs'.get ⟨j, hj'⟩).house = some h2 → h1.id ≠ h2.id) ∧
    (∀ records : List RawRecord,
      ∀ x ∈ (create_housing_market records).houses, x.available = true) := by
  rw [clean_the_market] at h
  obtain ⟨hlen, hevo, hidx, hpair⟩ :=
    processConsumers_spec (orderConsumers mech consumers) m cs' mf h
  refine ⟨hevo, countP_avail_le m.houses mf.houses hevo.1 fun i hi hi' =>
    (hevo.2 i hi hi').2, fun hall => ?_, hpair,
    fun records x hx => mem_buildHouses_available records 0 x hx⟩
  calc mf.houses.countP (fun x => !x.available)
      ≤ mf.houses.length := List.countP_le_length _
    _ = m.houses.length := hevo.1
    _ = m.houses.countP (fun x => x.available) :=
        (List.countP_eq_length.mpr hall).symm

theorem claim_C1_witness :
    HousingMarket.evolvesTo ⟨[⟨7, 150000, 1500, 3, 2000, some QualityScore.AVERAGE, true⟩]⟩
      ⟨[⟨7, 150000, 1500, 3, 2000, some QualityScore.AVERAGE, false⟩]⟩ ∧
    (HousingMarket.mk [⟨7, 150000, 1500, 3, 2000, some QualityScore.AVERAGE, false⟩]).houses.countP
        (fun x => x.available) ≤
      (HousingMarket.mk [⟨7, 150000, 1500, 3, 2000, some QualityScore.AVERAGE, true⟩]).houses.countP
        (fun x => x.available) ∧
    ((∀ x ∈ (HousingMarket.mk [⟨7, 150000, 1500, 3, 2000, some QualityScore.AVERAGE, true⟩]).houses,
        x.available = true) →
      (HousingMarket.mk [⟨7, 150000, 1500, 3, 2000, some QualityScore.AVERAGE, false⟩]).houses.countP
          (fun x => !x.available) ≤
        (HousingMarket.mk [⟨7, 150000, 1500, 3, 2000, some QualityScore.AVERAGE, true⟩]).houses.countP
          (fun x => x.available)) ∧
    (∀ i j (hi : i < (orderConsumers CleaningMarketMechanism.INCOME_ORDER_DESCENDANT
        [⟨1, 50000, 0, Segment.AVERAGE, none, 40000, 3/10, 1/20⟩]).length)
      (hj : j < (orderConsumers CleaningMarketMechanism.INCOME_ORDER_DESCENDANT
        [⟨1, 50000, 0, Segment.AVERAGE, none, 40000, 3/10, 1/20⟩]).length)
      (hi' : i < ([⟨1, 50000, 0, Segment.AVERAGE,
          some ⟨7, 150000, 1500, 3, 2000, some QualityScore.AVERAGE, false⟩,
          10000, 3/10, 1/20⟩] : List Consumer).length)
      (hj' : j < ([⟨1, 50000, 0, Segment.AVERAGE,
          some ⟨7, 150000, 1500, 3, 2000, some QualityScore.AVERAGE, false⟩,
          10000, 3/10, 1/20⟩] : List Consumer).length), i ≠ j →
      ((orderConsumers CleaningMarketMechanism.INCOME_ORDER_DESCENDANT
        [⟨1, 50000, 0, Segment.AVERAGE, none, 40000, 3/10, 1/20⟩]).get ⟨i, hi⟩).house = none →
      ((orderConsumers CleaningMarketMechanism.INCOME_ORDER_DESCENDANT
        [⟨1, 50000, 0, Segment.AVERAGE, none, 40000, 3/10, 1/20⟩]).get ⟨j, hj⟩).house = none →
      ∀ h1 h2, (([⟨1, 50000, 0, Segment.AVERAGE,
          some ⟨7, 150000, 1500, 3, 2000, some QualityScore.AVERAGE, false⟩,
          10000, 3/10, 1/20⟩] : List Consumer).get ⟨i, hi'⟩).house = some h1 →
        (([⟨1, 50000, 0, Segment.AVERAGE,
          some ⟨7, 150000, 1500, 3, 2000, some QualityScore.AVERAGE, false⟩,
          10000, 3/10, 1/20⟩] : List Consumer).get ⟨j, hj'⟩).house = some h2 →
        h1.id ≠ h2.id) ∧
    (∀ records : List RawRecord,
      ∀ x ∈ (create_housing_market records).houses, x.available = true) :=
  claim_C1 CleaningMarketMechanism.INCOME_ORDER_DESCENDANT
    [⟨1, 50000, 0, Segment.AVERAGE, none, 40000, 3/10, 1/20⟩]
    ⟨[⟨7, 150000, 1500, 3, 2000, some QualityScore.AVERAGE, true⟩]⟩
    [⟨1, 50000, 0, Segment.AVERAGE,
      some ⟨7, 150000, 1500, 3, 2000, some QualityScore.AVERAGE, false⟩,
      10000, 3/10, 1/20⟩]
    ⟨[⟨7, 150000, 1500, 3, 2000, some QualityScore.AVERAGE, false⟩]⟩
    (by with_unfolding_all rfl)
